import Mathlib

/-!
Verification of the golden-master regression engine
(`tools/golden/src/golden/`): normalization pipeline, runner, manifest,
recorder, comparator and reporter, shallowly embedded in Lean.

Machine integers are modelled as `Nat`/`Int` with explicit `% 2 ^ 32`
where the SHA-256 arithmetic wraps; the on-disk golden directory is
modelled as an explicit state value; fallible loads return `Except`.
-/

set_option maxRecDepth 8000

namespace Golden

/-! ### SHA-256 (model of `hashlib.sha256(content.encode("utf-8")).hexdigest()`)

`manifest.compute_sha256` delegates to Python's `hashlib`; we embed the
full FIPS 180-4 algorithm so that hashes are genuinely computed.  The
round constants are derived from the fractional parts of the cube roots
(resp. square roots) of the first primes, exactly as the standard
defines them; the implementation is validated below against the
standard test vectors for `""` and `"abc"`. -/

/-- Binary search step for the integer cube root. -/
def icbrtGo (n : Nat) : Nat → Nat → Nat → Nat
  | 0, lo, _ => lo
  | fuel + 1, lo, hi =>
    if hi ≤ lo then lo
    else
      let mid := (lo + hi + 1) / 2
      if mid * mid * mid ≤ n then icbrtGo n fuel mid hi else icbrtGo n fuel lo (mid - 1)

/-- Integer cube root: the largest `r` with `r ^ 3 ≤ n` (for `n < 2 ^ 128`). -/
def icbrt (n : Nat) : Nat := icbrtGo n 130 0 n

/-- Binary search step for the integer square root. -/
def isqrtGo (n : Nat) : Nat → Nat → Nat → Nat
  | 0, lo, _ => lo
  | fuel + 1, lo, hi =>
    if hi ≤ lo then lo
    else
      let mid := (lo + hi + 1) / 2
      if mid * mid ≤ n then isqrtGo n fuel mid hi else isqrtGo n fuel lo (mid - 1)

/-- Integer square root: the largest `r` with `r ^ 2 ≤ n` (for `n < 2 ^ 128`). -/
def isqrt (n : Nat) : Nat := isqrtGo n 130 0 n

/-- The first 8 primes (sources of the SHA-256 initial hash words). -/
def primes8 : List Nat := [2, 3, 5, 7, 11, 13, 17, 19]

/-- The first 64 primes (sources of the SHA-256 round constants). -/
def primes64 : List Nat :=
  [2, 3, 5, 7, 11, 13, 17, 19, 23, 29, 31, 37, 41, 43, 47, 53,
   59, 61, 67, 71, 73, 79, 83, 89, 97, 101, 103, 107, 109, 113, 127, 131,
   137, 139, 149, 151, 157, 163, 167, 173, 179, 181, 191, 193, 197, 199, 211, 223,
   227, 229, 233, 239, 241, 251, 257, 263, 269, 271, 277, 281, 283, 293, 307, 311]

/-- SHA-256 round constants: first 32 bits of the fractional parts of the
cube roots of the first 64 primes. -/
def shaK : List Nat := primes64.map (fun p => icbrt (p * 2 ^ 96) % 2 ^ 32)

/-- SHA-256 initial hash value: first 32 bits of the fractional parts of the
square roots of the first 8 primes. -/
def shaH0 : List Nat := primes8.map (fun p => isqrt (p * 2 ^ 64) % 2 ^ 32)

/-- Addition modulo `2 ^ 32`. -/
def add32 (a b : Nat) : Nat := (a + b) % 2 ^ 32

/-- Right rotation of a 32-bit word. -/
def rotr32 (n x : Nat) : Nat := (x >>> n) ||| ((x <<< (32 - n)) % 2 ^ 32)

/-- SHA-256 Σ₀. -/
def bsig0 (x : Nat) : Nat := (rotr32 2 x) ^^^ (rotr32 13 x) ^^^ (rotr32 22 x)

/-- SHA-256 Σ₁. -/
def bsig1 (x : Nat) : Nat := (rotr32 6 x) ^^^ (rotr32 11 x) ^^^ (rotr32 25 x)

/-- SHA-256 σ₀. -/
def ssig0 (x : Nat) : Nat := (rotr32 7 x) ^^^ (rotr32 18 x) ^^^ (x >>> 3)

/-- SHA-256 σ₁. -/
def ssig1 (x : Nat) : Nat := (rotr32 17 x) ^^^ (rotr32 19 x) ^^^ (x >>> 10)

/-- SHA-256 `Ch` (bitwise complement taken inside 32 bits). -/
def ch32 (x y z : Nat) : Nat := (x &&& y) ^^^ ((x ^^^ (2 ^ 32 - 1)) &&& z)

/-- SHA-256 `Maj`. -/
def maj32 (x y z : Nat) : Nat := (x &&& y) ^^^ (x &&& z) ^^^ (y &&& z)

/-- SHA-256 padding: append `0x80`, zeros up to 56 mod 64 bytes, then the
bit length as 8 big-endian bytes. -/
def padMessage (msg : List Nat) : List Nat :=
  let L := msg.length
  let zeros := (119 - L % 64) % 64
  let lenBytes := (List.range 8).map (fun i => ((8 * L) >>> (56 - 8 * i)) % 256)
  msg ++ [128] ++ List.replicate zeros 0 ++ lenBytes

/-- Group bytes into big-endian 32-bit words. -/
def bytesToWords : List Nat → List Nat
  | b0 :: b1 :: b2 :: b3 :: rest =>
      (((b0 * 256 + b1) * 256 + b2) * 256 + b3) :: bytesToWords rest
  | _ => []

/-- Split a word list into 16-word blocks. -/
def chunk16 : List Nat → List (List Nat)
  | a1 :: a2 :: a3 :: a4 :: a5 :: a6 :: a7 :: a8 ::
    a9 :: a10 :: a11 :: a12 :: a13 :: a14 :: a15 :: a16 :: rest =>
      [a1, a2, a3, a4, a5, a6, a7, a8, a9, a10, a11, a12, a13, a14, a15, a16] :: chunk16 rest
  | _ => []

/-- Extend a 16-word block to the 64-word message schedule. -/
def schedule (ws : List Nat) : Array Nat :=
  (List.range 48).foldl
    (fun w _ =>
      let t := w.size
      w.push (add32 (add32 (ssig1 (w.getD (t - 2) 0)) (w.getD (t - 7) 0))
                    (add32 (ssig0 (w.getD (t - 15) 0)) (w.getD (t - 16) 0))))
    ws.toArray

/-- The eight 32-bit working variables of the compression function. -/
structure SHAState where
  a : Nat
  b : Nat
  c : Nat
  d : Nat
  e : Nat
  f : Nat
  g : Nat
  h : Nat
  deriving Repr, DecidableEq

/-- One SHA-256 compression round. -/
def roundFn (s : SHAState) (k w : Nat) : SHAState :=
  let t1 := add32 s.h (add32 (bsig1 s.e) (add32 (ch32 s.e s.f s.g) (add32 k w)))
  let t2 := add32 (bsig0 s.a) (maj32 s.a s.b s.c)
  ⟨add32 t1 t2, s.a, s.b, s.c, add32 s.d t1, s.e, s.f, s.g⟩

/-- Compress one 512-bit block into the running hash. -/
def compressBlock (hs : List Nat) (block : List Nat) : List Nat :=
  let w := schedule block
  let init : SHAState :=
    ⟨hs.getD 0 0, hs.getD 1 0, hs.getD 2 0, hs.getD 3 0,
     hs.getD 4 0, hs.getD 5 0, hs.getD 6 0, hs.getD 7 0⟩
  let fin := (List.range 64).foldl (fun s t => roundFn s (shaK.getD t 0) (w.getD t 0)) init
  [add32 (hs.getD 0 0) fin.a, add32 (hs.getD 1 0) fin.b,
   add32 (hs.getD 2 0) fin.c, add32 (hs.getD 3 0) fin.d,
   add32 (hs.getD 4 0) fin.e, add32 (hs.getD 5 0) fin.f,
   add32 (hs.getD 6 0) fin.g, add32 (hs.getD 7 0) fin.h]

/-- SHA-256 of a byte sequence, as eight 32-bit words. -/
def sha256Words (msg : List Nat) : List Nat :=
  (chunk16 (bytesToWords (padMessage msg))).foldl compressBlock shaH0

/-- Lowercase hexadecimal digit. -/
def hexChar (n : Nat) : Char := if n < 10 then Char.ofNat (48 + n) else Char.ofNat (87 + n)

/-- Render a 32-bit word as 8 lowercase hex characters. -/
def word32Hex (x : Nat) : List Char := (List.range 8).map (fun i => hexChar ((x >>> (28 - 4 * i)) % 16))

/-- Hex digest of a word list. -/
def hexDigest (ws : List Nat) : String := String.mk (List.flatten (ws.map word32Hex))

/-- UTF-8 encoding of a single character. -/
def utf8Bytes (c : Char) : List Nat :=
  let v := c.toNat
  if v < 128 then [v]
  else if v < 2048 then [192 + v / 64, 128 + v % 64]
  else if v < 65536 then [224 + v / 4096, 128 + (v / 64) % 64, 128 + v % 64]
  else [240 + v / 262144, 128 + (v / 4096) % 64, 128 + (v / 64) % 64, 128 + v % 64]

/-- UTF-8 encoding of a string (Python `content.encode("utf-8")`). -/
def strUtf8 (s : String) : List Nat := s.data.foldr (fun c acc => utf8Bytes c ++ acc) []

/-- Model of `manifest.compute_sha256`: lowercase hex SHA-256 digest of the
UTF-8 encoding of `content`. -/
def compute_sha256 (content : String) : String := hexDigest (sha256Words (strUtf8 content))

/-! ### Python string primitives

Models of the CPython string operations the engine uses.  All functions
are structurally recursive (fuelled where Python iterates) so that the
kernel can evaluate them on concrete inputs. -/

/-- Characters Python's `str.isspace` / `re` `\s` (Unicode mode) treat as
whitespace. -/
def pyIsSpace (c : Char) : Bool :=
  let v := c.toNat
  v == 32 || (9 ≤ v && v ≤ 13) || (28 ≤ v && v ≤ 31) || v == 133 || v == 160 ||
  v == 5760 || (8192 ≤ v && v ≤ 8202) || v == 8232 || v == 8233 || v == 8239 ||
  v == 8287 || v == 12288

/-- ASCII letter test (`[A-Za-z]`). -/
def isAsciiLetter (c : Char) : Bool :=
  let v := c.toNat
  (65 ≤ v && v ≤ 90) || (97 ≤ v && v ≤ 122)

/-- Fuelled core of Python `str.replace` (left-to-right, non-overlapping);
`fuel` at least the input length makes it total and exact for nonempty
patterns. -/
def pyReplaceGo (old new : List Char) : Nat → List Char → List Char
  | 0, s => s
  | _ + 1, [] => []
  | fuel + 1, c :: rest =>
    if old.isPrefixOf (c :: rest) then
      new ++ pyReplaceGo old new fuel ((c :: rest).drop old.length)
    else c :: pyReplaceGo old new fuel rest

/-- Python `s.replace(old, new)` for a nonempty `old`. -/
def pyReplaceStr (s old new : String) : String :=
  String.mk (pyReplaceGo old.data new.data (s.data.length + 1) s.data)

/-- Trailing-whitespace strip of a character list (Python `str.rstrip()`). -/
def rstripChars (l : List Char) : List Char := (l.reverse.dropWhile pyIsSpace).reverse

/-- Split on newline characters, keeping empty pieces
(Python `text.split("\n")`). -/
def splitLinesGo (cur : List Char) : List Char → List (List Char)
  | [] => [cur.reverse]
  | c :: rest =>
    if c = '\n' then cur.reverse :: splitLinesGo [] rest else splitLinesGo (c :: cur) rest

/-- Join pieces with newlines (Python `"\n".join(...)`). -/
def joinNl : List (List Char) → List Char
  | [] => []
  | [l] => l
  | l :: ls => l ++ '\n' :: joinNl ls

/-! ### Normalizer pipeline (model of `normalize.py`) -/

/-- Characters matched by the regex class `[^\s"']`. -/
def pathClassChar (c : Char) : Bool :=
  !(pyIsSpace c) && c != '"' && c != Char.ofNat 39

/-- Length of the leftmost `strip_path` regex match starting exactly at the
head of `l`; `0` when there is none.  The pattern is
`[A-Za-z]:\\[^\s"']+|/[^\s"']+(?:/[^\s"']+)+`: the first alternative is a
drive prefix followed by a maximal nonempty run of class characters; the
second, anchored at `/`, greedily consumes the maximal class run, which
succeeds precisely when that run contains a further `/` that is neither
the second character nor the last. -/
def stripPathMatchLen (l : List Char) : Nat :=
  match l with
  | [] => 0
  | c :: rest =>
    if isAsciiLetter c then
      match rest with
      | ':' :: '\\' :: rest2 =>
        let run := rest2.takeWhile pathClassChar
        if run.length = 0 then 0 else 3 + run.length
      | _ => 0
    else if c = '/' then
      let t := rest.takeWhile pathClassChar
      if ((t.drop 1).dropLast).contains '/' then 1 + t.length else 0
    else 0

/-- Case-insensitive prefix test (`re.IGNORECASE`). -/
def ciStarts : List Char → List Char → Bool
  | [], _ => true
  | _ :: _, [] => false
  | p :: ps, c :: cs => p.toLower == c.toLower && ciStarts ps cs

/-- After the drive/slash prefix of length `pre`, match
`(?:tmp|temp|Temp)[/\\][^\s"']*` case-insensitively against `rest`,
returning the full match length (0 when none).  Under `re.IGNORECASE`
the `Temp` alternative is subsumed by `temp`. -/
def tmpAfter (pre : Nat) (rest : List Char) : Nat :=
  let tryWord (w : List Char) : Nat :=
    if ciStarts w rest then
      match rest.drop w.length with
      | d :: rest2 =>
        if d = '/' || d = '\\' then pre + w.length + 1 + (rest2.takeWhile pathClassChar).length
        else 0
      | [] => 0
    else 0
  let n1 := tryWord "tmp".data
  if n1 ≠ 0 then n1 else tryWord "temp".data

/-- Length of the leftmost `strip_temp_dir` regex match starting at the head
of `l` (pattern `(?:[A-Za-z]:\\|/)(?:tmp|temp|Temp)[/\\][^\s"']*`,
case-insensitive); `0` when there is none. -/
def tmpMatchLen (l : List Char) : Nat :=
  match l with
  | [] => 0
  | c :: rest =>
    if isAsciiLetter c then
      match rest with
      | ':' :: '\\' :: rest2 => tmpAfter 3 rest2
      | _ => 0
    else if c = '/' then tmpAfter 1 rest
    else 0

/-- Fuelled `re.sub` scan: at each position, if `matchLen` reports a match,
emit `token` and skip the match, else copy one character. -/
def reSubGo (matchLen : List Char → Nat) (token : List Char) : Nat → List Char → List Char
  | 0, s => s
  | _ + 1, [] => []
  | fuel + 1, c :: rest =>
    let n := matchLen (c :: rest)
    if n = 0 then c :: reSubGo matchLen token fuel rest
    else token ++ reSubGo matchLen token fuel ((c :: rest).drop n)

/-- `NORMALIZERS["normalize_newlines"]`: `text.replace("\r\n", "\n")`. -/
def normalize_newlines (s : String) : String := pyReplaceStr s "\r\n" "\n"

/-- `NORMALIZERS["strip_trailing_whitespace"]`:
`"\n".join(line.rstrip() for line in text.split("\n"))`. -/
def strip_trailing_whitespace (s : String) : String :=
  String.mk (joinNl ((splitLinesGo [] s.data).map rstripChars))

/-- `NORMALIZERS["strip_path"]`: substitute `<PATH>` for absolute-path
regex matches. -/
def strip_path (s : String) : String :=
  String.mk (reSubGo stripPathMatchLen "<PATH>".data (s.data.length + 1) s.data)

/-- `NORMALIZERS["strip_temp_dir"]`: substitute `<TMPDIR>` for
temp-directory regex matches. -/
def strip_temp_dir (s : String) : String :=
  String.mk (reSubGo tmpMatchLen "<TMPDIR>".data (s.data.length + 1) s.data)

/-- The `NORMALIZERS` dictionary: name → transform, `none` for unknown
names. -/
def NORMALIZERS (name : String) : Option (String → String) :=
  if name = "normalize_newlines" then some normalize_newlines
  else if name = "strip_trailing_whitespace" then some strip_trailing_whitespace
  else if name = "strip_path" then some strip_path
  else if name = "strip_temp_dir" then some strip_temp_dir
  else none

/-- `normalize.normalize`: always canonicalizes newlines first, then applies
each named transform in order, silently skipping unknown names
(`normalizer_names = []` models Python's `None`). -/
def normalize (text : String) (normalizer_names : List String) : String :=
  let text := normalize_newlines text
  normalizer_names.foldl
    (fun t n =>
      match NORMALIZERS n with
      | some f => f t
      | none => t)
    text

/-! ### Data model (`types.py`)

`RunResult.duration_ms` (a wall-clock float) is omitted: it is never
consulted by recorder, comparator or reporter, and no claim concerns it. -/

/-- A golden-master test definition (`types.TestCase`). -/
structure TestCase where
  name : String
  category : String
  args : List String
  stdin : Option String := none
  fixture : Option String := none
  normalizations : List String := []
  platform_specific : Bool := false
  deriving Repr, DecidableEq

/-- `TestCase.golden_key` property: `f"{category}/{name}"`. -/
def TestCase.golden_key (tc : TestCase) : String := tc.category ++ "/" ++ tc.name

/-- `TestCase.golden_filename` property: the bare `name`. -/
def TestCase.golden_filename (tc : TestCase) : String := tc.name

/-- `TestCase.golden_subdir` property: the bare `category`. -/
def TestCase.golden_subdir (tc : TestCase) : String := tc.category

/-- Result of one execution (`types.RunResult`, minus `duration_ms`). -/
structure RunResult where
  test_case : TestCase
  stdout : String
  stderr : String
  exit_code : Int
  deriving Repr, DecidableEq

/-- Result of one comparison (`types.CompareResult`). -/
structure CompareResult where
  test_case : TestCase
  status : String
  diff : String := ""
  error_msg : String := ""
  deriving Repr, DecidableEq

/-! ### Manifest (`manifest.py`) -/

/-- A single manifest row (`manifest.ManifestEntry`). -/
structure ManifestEntry where
  category : String
  name : String
  golden_path : String
  sha256 : String
  exit_code : Int
  normalizations : List String := []
  deriving Repr, DecidableEq

/-- The manifest ledger (`manifest.Manifest`); defaults mirror the
dataclass defaults (`MANIFEST_VERSION = 1`). -/
structure Manifest where
  version : Nat := 1
  omni_commit : String := ""
  recorded_at : String := ""
  entries : List ManifestEntry := []
  deriving Repr, DecidableEq

/-- `Manifest.find_entry`: first entry with matching `(category, name)`. -/
def Manifest.find_entry (m : Manifest) (category name : String) : Option ManifestEntry :=
  m.entries.find? (fun e => e.category == category && e.name == name)

/-- Replace the first entry with the same identity, else append
(`Manifest.upsert_entry` body). -/
def upsertEntries (entries : List ManifestEntry) (entry : ManifestEntry) : List ManifestEntry :=
  match entries with
  | [] => [entry]
  | e :: rest =>
    if e.category == entry.category && e.name == entry.name then entry :: rest
    else e :: upsertEntries rest entry

/-- `Manifest.upsert_entry`. -/
def Manifest.upsert_entry (m : Manifest) (entry : ManifestEntry) : Manifest :=
  { m with entries := upsertEntries m.entries entry }

/-! ### On-disk golden directory

The filesystem state the engine persists: `manifest.json`, per-test
`category/name.json` metadata and `category/name.stdout` sidecars.  A
stored file either loads to a value or raises on load (I/O, decode or
parse failure), modelled by `TextFile.corrupt` carrying the exception
message.  A `good` metadata file is one whose JSON parses and holds an
`exit_code` key.  Writes prepend to the association lists; `List.lookup`
returns the most recent write. -/

/-- A stored file: its parsed value, or a load failure. -/
inductive TextFile (α : Type) where
  | good (v : α)
  | corrupt (msg : String)
  deriving Repr, DecidableEq

/-- Parsed content of a `name.json` metadata file
(`{"exit_code": ..., "stdout_file": ..., "stderr": ...}`),
with `stderr` defaulted to `""` when absent, as `meta.get("stderr", "")`
does. -/
structure MetaData where
  exit_code : Int
  stdout_file : String
  stderr : String
  deriving Repr, DecidableEq

/-- The golden directory's persisted state. -/
structure GoldenDisk where
  manifest : Option (TextFile Manifest) := none
  metas : List (String × TextFile MetaData) := []
  stdouts : List (String × TextFile String) := []
  deriving Repr, DecidableEq

/-- Relative path of a test's metadata file:
`golden_dir / tc.golden_subdir / f"{tc.golden_filename}.json"`. -/
def metaJsonPath (tc : TestCase) : String :=
  tc.golden_subdir ++ "/" ++ tc.golden_filename ++ ".json"

/-- Relative path of a test's stdout sidecar. -/
def stdoutPath (tc : TestCase) : String :=
  tc.golden_subdir ++ "/" ++ tc.golden_filename ++ ".stdout"

/-- Python `Path.read_text` with default `newline=None` applies universal
newline translation: `"\r\n"` and lone `"\r"` both become `"\n"`. -/
def readText (raw : String) : String :=
  pyReplaceStr (pyReplaceStr raw "\r\n" "\n") "\r" "\n"

/-- `manifest.load_manifest`: empty manifest when the file is absent,
parsed value otherwise; a parse failure propagates as an exception. -/
def load_manifest (d : GoldenDisk) : Except String Manifest :=
  match d.manifest with
  | none => .ok {}
  | some (.good m) => .ok m
  | some (.corrupt msg) => .error msg

/-! ### Comparator (`comparator.py`) -/

/-- Stands in for `difflib.unified_diff` (an external library whose exact
text no claim depends on): a deterministic string naming both sides. -/
def unified_diff (expected actual label : String) : String :=
  "--- golden/" ++ label ++ "\n+++ actual/" ++ label ++ "\n" ++ expected ++ "\n" ++ actual

/-- The detailed (slow-path) comparison of `compare_results`: exit code,
then stdout, then stderr, short-circuiting on the first difference. -/
def slow_compare (r : RunResult) (expected_exit : Int)
    (expected_stdout expected_stderr : String) : CompareResult :=
  let tc := r.test_case
  if r.exit_code ≠ expected_exit then
    { test_case := tc, status := "mismatch",
      diff := "Exit code: expected " ++ toString expected_exit ++ ", got " ++ toString r.exit_code }
  else if r.stdout ≠ expected_stdout then
    { test_case := tc, status := "mismatch",
      diff := unified_diff expected_stdout r.stdout tc.golden_key }
  else if r.stderr ≠ expected_stderr then
    { test_case := tc, status := "mismatch",
      diff := unified_diff expected_stderr r.stderr (tc.golden_key ++ " (stderr)") }
  else { test_case := tc, status := "match" }

/-- The SHA-256 fast-path guard of `compare_results`:
`entry and entry.sha256 == actual_sha and result.exit_code == expected_exit
and result.stderr == expected_stderr`. -/
def fast_path_hit (manifest : Manifest) (r : RunResult) (expected_exit : Int)
    (expected_stderr : String) : Bool :=
  match manifest.find_entry r.test_case.category r.test_case.name with
  | some e =>
    e.sha256 == compute_sha256 r.stdout && r.exit_code == expected_exit &&
      r.stderr == expected_stderr
  | none => false

/-- Comparison once the baseline is loaded: fast path, else detailed
comparison. -/
def compare_loaded (manifest : Manifest) (r : RunResult) (expected_exit : Int)
    (expected_stdout expected_stderr : String) : CompareResult :=
  if fast_path_hit manifest r expected_exit expected_stderr then
    { test_case := r.test_case, status := "match" }
  else slow_compare r expected_exit expected_stdout expected_stderr

/-- Per-test body of the `compare_results` loop (`tc` inlined as
`r.test_case`). -/
def compare_one (manifest : Manifest) (d : GoldenDisk) (r : RunResult) : CompareResult :=
  match d.metas.lookup (metaJsonPath r.test_case) with
  | none =>
    { test_case := r.test_case, status := "new",
      error_msg := "No golden master. Run 'record' to create baseline." }
  | some (.corrupt msg) =>
    { test_case := r.test_case, status := "error", error_msg := "Failed to load golden: " ++ msg }
  | some (.good meta) =>
    match d.stdouts.lookup (stdoutPath r.test_case) with
    | some (.corrupt msg) =>
      { test_case := r.test_case, status := "error", error_msg := "Failed to load golden: " ++ msg }
    | some (.good raw) => compare_loaded manifest r meta.exit_code (readText raw) meta.stderr
    | none => compare_loaded manifest r meta.exit_code "" meta.stderr

/-- `comparator.compare_results`: loads the manifest once (an exception
there propagates), then classifies every run result in order. -/
def compare_results (results : List RunResult) (golden_dir : GoldenDisk) :
    Except String (List CompareResult) :=
  match load_manifest golden_dir with
  | .error e => .error e
  | .ok manifest => .ok (results.map (compare_one manifest golden_dir))

/-! ### Recorder (`recorder.py`) -/

/-- The metadata dictionary `record_golden` writes to `name.json`. -/
def recordedMeta (r : RunResult) : MetaData :=
  { exit_code := r.exit_code,
    stdout_file := r.test_case.golden_filename ++ ".stdout",
    stderr := r.stderr }

/-- The `ManifestEntry` that `record_golden` upserts for one run result. -/
def recordedEntry (r : RunResult) : ManifestEntry :=
  { category := r.test_case.category, name := r.test_case.name,
    golden_path := r.test_case.golden_subdir ++ "/" ++ r.test_case.golden_filename ++ ".stdout",
    sha256 := compute_sha256 r.stdout, exit_code := r.exit_code,
    normalizations := r.test_case.normalizations }

/-- Body of the `record_golden` loop: write the sidecar and metadata files
and upsert the manifest entry. -/
def record_one (acc : GoldenDisk × Manifest) (r : RunResult) : GoldenDisk × Manifest :=
  ({ acc.1 with
      stdouts := (stdoutPath r.test_case, TextFile.good r.stdout) :: acc.1.stdouts,
      metas := (metaJsonPath r.test_case, TextFile.good (recordedMeta r)) :: acc.1.metas },
   acc.2.upsert_entry (recordedEntry r))

/-- `recorder.record_golden`: loads the manifest (a parse failure
propagates), stamps provenance, writes every baseline, then saves the
manifest once.  `commit` and `recorded_at` model `get_git_commit()` and
`now_iso()`, which read the environment. -/
def record_golden (results : List RunResult) (golden_dir : GoldenDisk)
    (commit recorded_at : String) : Except String (GoldenDisk × Manifest) :=
  match load_manifest golden_dir with
  | .error e => .error e
  | .ok m0 =>
    let m0 := { m0 with omni_commit := commit, recorded_at := recorded_at }
    let dm := results.foldl record_one (golden_dir, m0)
    .ok ({ dm.1 with manifest := some (TextFile.good dm.2) }, dm.2)

/-! ### Runner (`runner.py`)

The subprocess layer (`subprocess.run`) is external: its observable
outcome for one invocation — completion with captured streams and return
code, or expiry of the timeout — is passed to `run_test_case` as a
`ProcOutcome` value. -/

/-- Outcome of the `subprocess.run` call. -/
inductive ProcOutcome where
  | completed (stdout stderr : String) (returncode : Int)
  | timedOut
  deriving Repr, DecidableEq

/-- Fixture temp-file path chosen by `run_test_case`:
`Path(td) / f"{test_case.name}.txt"` — keyed by `name` alone. -/
def fixture_temp_path (tc : TestCase) (temp_dir : String) : String :=
  temp_dir ++ "/" ++ tc.name ++ ".txt"

/-- Argument vector after `{file}` substitution (performed only when a
fixture is present). -/
def substituted_args (tc : TestCase) (temp_dir : String) : List String :=
  match tc.fixture with
  | some _ => tc.args.map (fun a => if a == "{file}" then fixture_temp_path tc temp_dir else a)
  | none => tc.args

/-- `runner.run_test_case`: on completion, normalize both captured streams
with the test's normalizations; on `TimeoutExpired`, return the sentinel
result instead of raising. -/
def run_test_case (tc : TestCase) (timeout : Nat) (outcome : ProcOutcome) : RunResult :=
  match outcome with
  | .completed out err code =>
    { test_case := tc, stdout := normalize out tc.normalizations,
      stderr := normalize err tc.normalizations, exit_code := code }
  | .timedOut =>
    { test_case := tc, stdout := "",
      stderr := "TIMEOUT: command exceeded " ++ toString timeout ++ "s", exit_code := -1 }

/-- Index stored for a key by the dict comprehension
`{tc.golden_key: i for i, tc in enumerate(test_cases)}` — the last
enumeration index bearing that key — threading the running index `i`. -/
def lastIndexOfKey : List TestCase → String → Nat → Option Nat
  | [], _, _ => none
  | tc :: rest, k, i =>
    match lastIndexOfKey rest k (i + 1) with
    | some j => some j
    | none => if tc.golden_key == k then some i else none

/-- `order.get(key, 0)` against that dict. -/
def orderGet (test_cases : List TestCase) (k : String) : Nat :=
  (lastIndexOfKey test_cases k 0).getD 0

/-- The sort key relation of `results.sort(key=...)`: compare the stored
input indices of the golden keys. -/
def runner_order (test_cases : List TestCase) (a b : RunResult) : Prop :=
  orderGet test_cases a.test_case.golden_key ≤ orderGet test_cases b.test_case.golden_key

instance (test_cases : List TestCase) : DecidableRel (runner_order test_cases) :=
  fun _ _ => Nat.decLe _ _

/-- The post-collection merge step of `run_all`: a stable sort of the
collected results by stored input index (Python's `list.sort` is stable;
`collected` is the worker-completion order). -/
def run_all_merge (test_cases : List TestCase) (collected : List RunResult) : List RunResult :=
  List.insertionSort (runner_order test_cases) collected

/-! ### Reporter (`report.py`) -/

/-- The exit code computed by `report.print_report`: the loop tallies
`counts[status]` for each result, and the return value inspects only the
`error`, `mismatch` and `new` tallies — `2` when `counts["error"]` is
truthy, else `1` when `counts["mismatch"] or counts["new"]` is truthy,
else `0`. -/
def print_report_code (results : List CompareResult) : Nat :=
  if results.countP (fun r => r.status == "error") ≠ 0 then 2
  else if results.countP (fun r => r.status == "mismatch") ≠ 0 ∨
          results.countP (fun r => r.status == "new") ≠ 0 then 1
  else 0

/-- FIPS 180-4 test vector: the digest of the empty string. -/
theorem compute_sha256_empty_vector :
    compute_sha256 "" = "e3b0c44298fc1c149afbf4c8996fb92427ae41e4649b934ca495991b7852b855" := by
  decide

/-- FIPS 180-4 test vector: the digest of `"abc"`. -/
theorem compute_sha256_abc_vector :
    compute_sha256 "abc" = "ba7816bf8f01cfea414140de5dae2223b00361a396177a9cb410ff61f20015ad" := by
  decide

/-! ### Helper lemmas -/

/-- A nonzero `countP` tally is exactly a successful `any`. -/
theorem countP_ne_zero_iff_any {α : Type} (p : α → Bool) (l : List α) :
    l.countP p ≠ 0 ↔ l.any p = true := by
  induction l with
  | nil => simp
  | cons a l ih => by_cases h : p a <;> simp [List.countP_cons, List.any_cons, h, ih]

/-- The detailed comparison only ever classifies `match` or `mismatch`. -/
theorem slow_compare_status_cases (r : RunResult) (expected_exit : Int)
    (expected_stdout expected_stderr : String) :
    (slow_compare r expected_exit expected_stdout expected_stderr).status = "match" ∨
    (slow_compare r expected_exit expected_stdout expected_stderr).status = "mismatch" := by
  unfold slow_compare
  split_ifs <;> first | exact Or.inl rfl | exact Or.inr rfl

/-- Comparison of a loaded baseline only ever classifies `match` or
`mismatch`. -/
theorem compare_loaded_status_cases (manifest : Manifest) (r : RunResult) (expected_exit : Int)
    (expected_stdout expected_stderr : String) :
    (compare_loaded manifest r expected_exit expected_stdout expected_stderr).status = "match" ∨
    (compare_loaded manifest r expected_exit expected_stdout expected_stderr).status = "mismatch" := by
  unfold compare_loaded
  split_ifs
  · exact Or.inl rfl
  · exact slow_compare_status_cases r expected_exit expected_stdout expected_stderr

/-! ### Concrete fixtures for witnesses and counterexamples -/

/-- Sample test case `(category, name) = ("c", "n")`. -/
def tcSample : TestCase := { name := "n", category := "c", args := [] }

/-- A run of `tcSample` with empty output and exit 0. -/
def rSample : RunResult := { test_case := tcSample, stdout := "", stderr := "", exit_code := 0 }

/-- A pristine golden directory. -/
def diskEmpty : GoldenDisk := {}

/-! ### C2 — normalization idempotence -/

/-- C2 (code_bug): normalization is not idempotent.  The unconditional
newline-canonicalization step is a single left-to-right pass of
`text.replace("\r\n", "\n")`, so on `"\r\r\n"` (with no further
normalizers selected) one application yields `"\r\n"` — which still
contains a CRLF — and a second application yields `"\n"`, contradicting
the specified contract `normalize(normalize(x, N), N) == normalize(x, N)`. -/
theorem normalize_not_idempotent_on_crcrlf :
    normalize "\r\r\n" [] = "\r\n" ∧
    normalize (normalize "\r\r\n" []) [] = "\n" ∧
    normalize (normalize "\r\r\n" []) [] ≠ normalize "\r\r\n" [] := by
  decide

/-! ### C5 — reporter exit-code policy -/

/-- C5 (confirmed): `print_report` returns 2 when any result has status
`error`; otherwise 1 when any result has status `mismatch` or `new`;
otherwise 0. -/
theorem print_report_exit_policy (results : List CompareResult) :
    print_report_code results =
      if results.any (fun r => r.status == "error") then 2
      else if results.any (fun r => r.status == "mismatch" || r.status == "new") then 1
      else 0 := by
  unfold print_report_code
  by_cases he : results.any (fun r => r.status == "error") = true
  · rw [if_pos ((countP_ne_zero_iff_any _ _).mpr he), if_pos he]
  · rw [if_neg (fun hc => he ((countP_ne_zero_iff_any _ _).mp hc)), if_neg he]
    by_cases hmn : results.any (fun r => r.status == "mismatch" || r.status == "new") = true
    · have h2 : results.countP (fun r => r.status == "mismatch") ≠ 0 ∨
          results.countP (fun r => r.status == "new") ≠ 0 := by
        rw [countP_ne_zero_iff_any, countP_ne_zero_iff_any]
        rcases List.any_eq_true.mp hmn with ⟨x, hx, hpx⟩
        rcases Bool.or_eq_true_iff.mp hpx with hp | hp
        · exact Or.inl (List.any_eq_true.mpr ⟨x, hx, hp⟩)
        · exact Or.inr (List.any_eq_true.mpr ⟨x, hx, hp⟩)
      rw [if_pos h2, if_pos hmn]
    · have h2 : ¬(results.countP (fun r => r.status == "mismatch") ≠ 0 ∨
          results.countP (fun r => r.status == "new") ≠ 0) := by
        rintro (hc | hc) <;> apply hmn
        · rcases List.any_eq_true.mp ((countP_ne_zero_iff_any _ _).mp hc) with ⟨x, hx, hp⟩
          exact List.any_eq_true.mpr ⟨x, hx, by simp [hp]⟩
        · rcases List.any_eq_true.mp ((countP_ne_zero_iff_any _ _).mp hc) with ⟨x, hx, hp⟩
          exact List.any_eq_true.mpr ⟨x, hx, by simp [hp]⟩
      rw [if_neg h2, if_neg hmn]

/-! ### C6 — timeout handling -/

/-- C6 (confirmed): when the subprocess layer reports `TimeoutExpired`,
`run_test_case` returns normally with the sentinel exit code `-1`, empty
stdout, and a synthetic stderr that begins with the marker `TIMEOUT`. -/
theorem run_test_case_timeout_sentinel (tc : TestCase) (timeout : Nat) :
    (run_test_case tc timeout ProcOutcome.timedOut).exit_code = -1 ∧
    (run_test_case tc timeout ProcOutcome.timedOut).stdout = "" ∧
    (run_test_case tc timeout ProcOutcome.timedOut).stderr =
      "TIMEOUT: command exceeded " ++ toString timeout ++ "s" ∧
    ∃ rest : String, (run_test_case tc timeout ProcOutcome.timedOut).stderr = "TIMEOUT" ++ rest := by
  refine ⟨rfl, rfl, rfl, ": command exceeded " ++ toString timeout ++ "s", ?_⟩
  show "TIMEOUT: command exceeded " ++ toString timeout ++ "s" =
    "TIMEOUT" ++ (": command exceeded " ++ toString timeout ++ "s")
  have h : "TIMEOUT: command exceeded " = "TIMEOUT" ++ ": command exceeded " := rfl
  rw [h, String.append_assoc, String.append_assoc, String.append_assoc]

/-! ### C7 — new-test detection -/

/-- C7 (confirmed): when no baseline metadata file exists for a test, its
comparison is status `new` — for every manifest whatsoever, so no hash
check can influence it — and, whenever the manifest itself loads, the
whole batch still yields one `CompareResult` per run result. -/
theorem compare_new_when_no_baseline (d : GoldenDisk) (r : RunResult)
    (h : d.metas.lookup (metaJsonPath r.test_case) = none) :
    (∀ manifest : Manifest, compare_one manifest d r =
      { test_case := r.test_case, status := "new",
        error_msg := "No golden master. Run 'record' to create baseline." }) ∧
    (∀ (results : List RunResult) (m : Manifest), load_manifest d = .ok m →
      compare_results results d = .ok (results.map (compare_one m d))) := by
  constructor
  · intro manifest
    unfold compare_one
    rw [h]
  · intro results m hm
    unfold compare_results
    rw [hm]

/-- C7 witness: with an empty golden directory, a concrete run result is
classified `new` under a concrete manifest. -/
theorem compare_new_when_no_baseline_witness :
    compare_one {} diskEmpty rSample =
      { test_case := tcSample, status := "new",
        error_msg := "No golden master. Run 'record' to create baseline." } :=
  (compare_new_when_no_baseline diskEmpty rSample rfl).1 {}

/-! ### C9 — fixture temp-file naming -/

/-- Two fixture-bearing test cases that share a name across different
categories. -/
def tcFixtureA : TestCase :=
  { name := "shared", category := "text", args := ["{file}"], fixture := some "A" }

/-- Same name as `tcFixtureA`, different category. -/
def tcFixtureB : TestCase :=
  { name := "shared", category := "json", args := ["{file}"], fixture := some "B" }

/-- C9 (code_bug): `run_test_case` keys the fixture temp file by `name`
alone (`Path(td) / f"{test_case.name}.txt"`), so two test cases with
distinct `(category, name)` identities but equal names are materialized
to the *same* temporary path, exactly the collision the claim says is
avoided. -/
theorem fixture_temp_path_collision :
    tcFixtureA.category ≠ tcFixtureB.category ∧
    (tcFixtureA.category, tcFixtureA.name) ≠ (tcFixtureB.category, tcFixtureB.name) ∧
    fixture_temp_path tcFixtureA "/t" = fixture_temp_path tcFixtureB "/t" := by
  decide

/-! ### C10 — metadata present, sidecar absent -/

/-- C10 (confirmed): when the metadata file loads but the stdout sidecar is
absent, `compare_results` takes the expected stdout to be `""` and runs
the normal comparison — the status is never `error` or `new`, and is
`match` exactly when the run matches the metadata with empty stdout. -/
theorem missing_sidecar_empty_expected (m : Manifest) (d : GoldenDisk) (r : RunResult)
    (meta : MetaData)
    (hmeta : d.metas.lookup (metaJsonPath r.test_case) = some (TextFile.good meta))
    (hsd : d.stdouts.lookup (stdoutPath r.test_case) = none) :
    compare_one m d r = compare_loaded m r meta.exit_code "" meta.stderr ∧
    (compare_one m d r).status ≠ "error" ∧
    (compare_one m d r).status ≠ "new" ∧
    (r.stdout = "" → r.exit_code = meta.exit_code → r.stderr = meta.stderr →
      (compare_one m d r).status = "match") := by
  have hone : compare_one m d r = compare_loaded m r meta.exit_code "" meta.stderr := by
    unfold compare_one
    rw [hmeta, hsd]
  have hcases := compare_loaded_status_cases m r meta.exit_code "" meta.stderr
  refine ⟨hone, ?_, ?_, ?_⟩
  · rw [hone]
    rcases hcases with hc | hc <;> rw [hc] <;> decide
  · rw [hone]
    rcases hcases with hc | hc <;> rw [hc] <;> decide
  · intro hout hexit herr
    rw [hone]
    unfold compare_loaded
    split_ifs with hfast
    · rfl
    · unfold slow_compare
      rw [if_neg (by simp [hexit]), if_neg (by simp [hout]), if_neg (by simp [herr])]

/-- Metadata stored for the C10 witness. -/
def metaC10 : MetaData := { exit_code := 0, stdout_file := "n.stdout", stderr := "" }

/-- A golden directory holding metadata for `tcSample` but no sidecar. -/
def dC10 : GoldenDisk := { metas := [(metaJsonPath tcSample, TextFile.good metaC10)] }

/-- C10 witness: a concrete empty-stdout run against metadata without a
sidecar is classified `match`. -/
theorem missing_sidecar_empty_expected_witness :
    (compare_one {} dC10 rSample).status = "match" :=
  (missing_sidecar_empty_expected {} dC10 rSample metaC10 rfl rfl).2.2.2 rfl rfl rfl

/-! ### C1 — fast-path / slow-path agreement -/

/-- Test case for the C1 counterexample. -/
def tcC1 : TestCase := { name := "t1", category := "cat", args := [] }

/-- Actual run: stdout `"a"`. -/
def rC1 : RunResult := { test_case := tcC1, stdout := "a", stderr := "", exit_code := 0 }

/-- Manifest entry whose hash matches the *actual* stdout, not the stored
sidecar — an out-of-sync baseline state. -/
def entryC1 : ManifestEntry :=
  { category := "cat", name := "t1", golden_path := "cat/t1.stdout",
    sha256 := compute_sha256 "a", exit_code := 0 }

/-- Manifest for the C1 counterexample. -/
def mC1 : Manifest := { entries := [entryC1] }

/-- Golden directory for the C1 counterexample: the sidecar holds `"b"`. -/
def dC1 : GoldenDisk :=
  { manifest := some (TextFile.good mC1),
    metas := [(metaJsonPath tcC1,
      TextFile.good { exit_code := 0, stdout_file := "t1.stdout", stderr := "" })],
    stdouts := [(stdoutPath tcC1, TextFile.good "b")] }

/-- C1 counterexample: for this stored baseline (manifest entry, metadata
file and stdout sidecar) the fast-path guard holds — the entry's sha256
equals the hash of the actual stdout, exit codes and stderrs agree — so
`compare_results` classifies `match`, yet the field-by-field comparison
of the same inputs classifies `mismatch`, because the sidecar's text
differs from the actual stdout.  The claim fails on baselines whose
manifest hash is out of sync with the sidecar. -/
theorem fast_slow_disagree_cex :
    fast_path_hit mC1 rC1 0 "" = true ∧
    compare_results [rC1] dC1 = .ok [{ test_case := tcC1, status := "match" }] ∧
    (slow_compare rC1 0 (readText "b") "").status = "mismatch" :=
  ⟨rfl, rfl, rfl⟩

/-- C1 (corrected): for every run result and loaded baseline whose manifest
entry (when present) carries the sha256 of the expected stdout, and
absent a SHA-256 collision between actual and expected stdout, the
status assigned with the fast path enabled equals the status of the full
field-by-field comparison. -/
theorem fast_slow_agree (manifest : Manifest) (r : RunResult) (expected_exit : Int)
    (expected_stdout expected_stderr : String)
    (hcons : ∀ e, manifest.find_entry r.test_case.category r.test_case.name = some e →
      e.sha256 = compute_sha256 expected_stdout)
    (hnc : compute_sha256 r.stdout = compute_sha256 expected_stdout →
      r.stdout = expected_stdout) :
    (compare_loaded manifest r expected_exit expected_stdout expected_stderr).status =
      (slow_compare r expected_exit expected_stdout expected_stderr).status := by
  unfold compare_loaded
  by_cases hfast : fast_path_hit manifest r expected_exit expected_stderr = true
  · rw [if_pos hfast]
    unfold fast_path_hit at hfast
    cases hfe : manifest.find_entry r.test_case.category r.test_case.name with
    | none =>
      simp only [hfe] at hfast
      exact Bool.noConfusion hfast
    | some e =>
      simp only [hfe, Bool.and_eq_true, beq_iff_eq] at hfast
      obtain ⟨⟨h1, h2⟩, h4⟩ := hfast
      have hstdout : r.stdout = expected_stdout := hnc (h1.symm.trans (hcons e hfe))
      unfold slow_compare
      rw [if_neg (by simp [h2]), if_neg (by simp [hstdout]), if_neg (by simp [h4])]
  · rw [if_neg hfast]

/-- Manifest entry for the C1 witness, in sync with the expected stdout. -/
def entryC1W : ManifestEntry :=
  { category := "c", name := "n", golden_path := "c/n.stdout",
    sha256 := compute_sha256 "x", exit_code := 0 }

/-- Manifest for the C1 witness. -/
def mC1W : Manifest := { entries := [entryC1W] }

/-- Run for the C1 witness: stdout `"x"`. -/
def rC1W : RunResult := { test_case := tcSample, stdout := "x", stderr := "", exit_code := 0 }

/-- C1 witness: on a consistent concrete baseline, the fast-path and
field-by-field statuses coincide. -/
theorem fast_slow_agree_witness :
    (compare_loaded mC1W rC1W 0 "x" "").status = (slow_compare rC1W 0 "x" "").status :=
  fast_slow_agree mC1W rC1W 0 "x" ""
    (fun e he => by
      have h0 : mC1W.find_entry rC1W.test_case.category rC1W.test_case.name = some entryC1W := rfl
      rw [h0] at he
      cases he
      rfl)
    (fun _ => rfl)

/-! ### C3 — corrupt stored state -/

/-- A second healthy test case for the C3 counterexample. -/
def tcC3 : TestCase := { name := "other", category := "c", args := [] }

/-- A run of `tcC3`. -/
def rC3 : RunResult := { test_case := tcC3, stdout := "", stderr := "", exit_code := 0 }

/-- Golden directory with a corrupt `manifest.json` but healthy per-test
baselines. -/
def dC3 : GoldenDisk :=
  { manifest := some (TextFile.corrupt "Expecting value: line 1 column 1 (char 0)"),
    metas := [(metaJsonPath tcSample, TextFile.good metaC10),
              (metaJsonPath tcC3, TextFile.good metaC10)] }

/-- C3 counterexample: when the manifest itself is corrupt,
`compare_results` propagates the parse failure and produces *no*
`CompareResult` at all — it does not surface a per-test `error` status
and does not classify the remaining healthy tests. -/
theorem corrupt_manifest_aborts_cex :
    compare_results [rSample, rC3] dC3 = .error "Expecting value: line 1 column 1 (char 0)" ∧
    ∀ out : List CompareResult, compare_results [rSample, rC3] dC3 ≠ .ok out := by
  have h : compare_results [rSample, rC3] dC3 =
      .error "Expecting value: line 1 column 1 (char 0)" := rfl
  refine ⟨h, fun out hout => ?_⟩
  rw [h] at hout
  exact Except.noConfusion hout

/-- C3 (corrected): a corrupt per-test baseline metadata file yields status
`error` for that test only, carrying the failure message, and the batch
still produces one `CompareResult` per run result; but a corrupt
manifest file aborts the whole batch — `compare_results` propagates the
parse failure instead of isolating it. -/
theorem compare_corrupt_isolation_amended :
    (∀ (results : List RunResult) (d : GoldenDisk) (m : Manifest) (msg : String)
        (r : RunResult),
      load_manifest d = .ok m → r ∈ results →
      d.metas.lookup (metaJsonPath r.test_case) = some (TextFile.corrupt msg) →
      compare_results results d = .ok (results.map (compare_one m d)) ∧
      compare_one m d r =
        { test_case := r.test_case, status := "error",
          error_msg := "Failed to load golden: " ++ msg }) ∧
    (∀ (results : List RunResult) (d : GoldenDisk) (msg : String),
      d.manifest = some (TextFile.corrupt msg) →
      compare_results results d = .error msg) := by
  constructor
  · intro results d m msg r hm _hr hc
    constructor
    · unfold compare_results
      rw [hm]
    · unfold compare_one
      rw [hc]
  · intro results d msg hmf
    unfold compare_results load_manifest
    rw [hmf]

/-- Golden directory whose only baseline metadata is corrupt. -/
def dC3W : GoldenDisk := { metas := [(metaJsonPath tcSample, TextFile.corrupt "bad json")] }

/-- C3 witness: a concrete corrupt metadata file yields the `error` status
carrying the message. -/
theorem compare_corrupt_isolation_witness :
    compare_one {} dC3W rSample =
      { test_case := tcSample, status := "error",
        error_msg := "Failed to load golden: " ++ "bad json" } :=
  (compare_corrupt_isolation_amended.1 [rSample] dC3W {} "bad json" rSample rfl
    (List.mem_cons_self rSample []) rfl).2

/-! ### C4 — record / compare round-trip -/

/-- After `record_one`, the entry just upserted is the one `find_entry`
returns for its identity. -/
theorem find_upsertEntries (es : List ManifestEntry) (e : ManifestEntry) :
    List.find? (fun x => x.category == e.category && x.name == e.name) (upsertEntries es e) =
      some e := by
  induction es with
  | nil => simp [upsertEntries, List.find?_cons_of_pos]
  | cons a rest ih =>
    unfold upsertEntries
    by_cases h : (a.category == e.category && a.name == e.name) = true
    · rw [if_pos h]
      exact List.find?_cons_of_pos _ (by simp)
    · rw [if_neg h]
      rw [List.find?_cons_of_neg _ (by simpa using h)]
      exact ih

/-- `find_entry` after `upsert_entry` at the same identity returns the new
entry. -/
theorem find_entry_upsert (m : Manifest) (e : ManifestEntry) (cat nm : String)
    (hc : e.category = cat) (hn : e.name = nm) :
    (m.upsert_entry e).find_entry cat nm = some e := by
  subst hc
  subst hn
  unfold Manifest.upsert_entry Manifest.find_entry
  exact find_upsertEntries m.entries e

/-- Comparing a run against the state `record_one` just wrote for it is a
fast-path `match`. -/
theorem compare_one_roundtrip (d : GoldenDisk) (m : Manifest) (r : RunResult) :
    compare_one ((record_one (d, m) r).2)
      { (record_one (d, m) r).1 with
        manifest := some (TextFile.good ((record_one (d, m) r).2)) } r =
      { test_case := r.test_case, status := "match" } := by
  show compare_one (m.upsert_entry (recordedEntry r))
      { manifest := some (TextFile.good (m.upsert_entry (recordedEntry r))),
        metas := (metaJsonPath r.test_case, TextFile.good (recordedMeta r)) :: d.metas,
        stdouts := (stdoutPath r.test_case, TextFile.good r.stdout) :: d.stdouts } r = _
  unfold compare_one
  simp only [List.lookup, beq_self_eq_true]
  unfold compare_loaded fast_path_hit
  rw [find_entry_upsert m (recordedEntry r) r.test_case.category r.test_case.name rfl rfl]
  simp [recordedEntry, recordedMeta]

/-- C4 (confirmed): recording a run result and immediately comparing the
same run result against the freshly written golden directory yields
status `match` (provided the pre-existing manifest, if any, loads). -/
theorem record_then_compare_match (r : RunResult) (d : GoldenDisk)
    (commit recorded_at : String) (m0 : Manifest) (h : load_manifest d = .ok m0) :
    (record_golden [r] d commit recorded_at).bind
        (fun dm => compare_results [r] dm.1) =
      .ok [{ test_case := r.test_case, status := "match" }] := by
  unfold record_golden
  rw [h]
  show compare_results [r]
      { (record_one (d, { m0 with omni_commit := commit, recorded_at := recorded_at }) r).1 with
        manifest := some (TextFile.good
          ((record_one (d, { m0 with omni_commit := commit, recorded_at := recorded_at }) r).2)) } =
    .ok [{ test_case := r.test_case, status := "match" }]
  show Except.ok ([r].map (compare_one
      ((record_one (d, { m0 with omni_commit := commit, recorded_at := recorded_at }) r).2)
      { (record_one (d, { m0 with omni_commit := commit, recorded_at := recorded_at }) r).1 with
        manifest := some (TextFile.good
          ((record_one (d, { m0 with omni_commit := commit, recorded_at := recorded_at }) r).2)) })) = _
  rw [List.map_singleton, compare_one_roundtrip]

/-- C4 witness: record-then-compare on a concrete run and a pristine golden
directory is `match`. -/
theorem record_then_compare_match_witness :
    (record_golden [rSample] diskEmpty "deadbee" "2026-01-01T00:00:00+00:00").bind
        (fun dm => compare_results [rSample] dm.1) =
      .ok [{ test_case := tcSample, status := "match" }] :=
  record_then_compare_match rSample diskEmpty "deadbee" "2026-01-01T00:00:00+00:00" {} rfl

/-! ### C8 — restoration of input order -/

/-- Keys absent from the list are absent from the order dict. -/
theorem lastIndexOfKey_eq_none : ∀ (tcs : List TestCase) (k : String) (i : Nat),
    (∀ tc ∈ tcs, tc.golden_key ≠ k) → lastIndexOfKey tcs k i = none := by
  intro tcs k
  induction tcs with
  | nil => intro i _; rfl
  | cons a rest ih =>
    intro i h
    unfold lastIndexOfKey
    rw [ih (i + 1) (fun tc htc => h tc (List.mem_cons_of_mem a htc))]
    have hne : (a.golden_key == k) = false :=
      beq_eq_false_iff_ne.mpr (h a (List.mem_cons_self a rest))
    simp [hne]

/-- With pairwise-distinct keys, the order dict stores, for the key of the
`j`-th test case, the running index `i + j`. -/
theorem lastIndexOfKey_of_nodup : ∀ (tcs : List TestCase),
    (tcs.map TestCase.golden_key).Nodup →
    ∀ (j : Nat) (hj : j < tcs.length) (i : Nat),
      lastIndexOfKey tcs (tcs.get ⟨j, hj⟩).golden_key i = some (i + j) := by
  intro tcs
  induction tcs with
  | nil => intro _ j hj; exact absurd hj (Nat.not_lt_zero j)
  | cons a rest ih =>
    intro hnd j hj i
    rw [List.map_cons] at hnd
    match j with
    | 0 =>
      have hnone : lastIndexOfKey rest a.golden_key (i + 1) = none := by
        apply lastIndexOfKey_eq_none
        intro tc htc heq
        exact (List.nodup_cons.mp hnd).1 (heq ▸ List.mem_map_of_mem TestCase.golden_key htc)
      show lastIndexOfKey (a :: rest) a.golden_key i = some (i + 0)
      unfold lastIndexOfKey
      rw [hnone]
      simp
    | j' + 1 =>
      show lastIndexOfKey (a :: rest) (rest.get ⟨j', Nat.lt_of_succ_lt_succ hj⟩).golden_key i =
        some (i + (j' + 1))
      unfold lastIndexOfKey
      rw [ih (List.nodup_cons.mp hnd).2 j' (Nat.lt_of_succ_lt_succ hj) (i + 1)]
      show some (i + 1 + j') = some (i + (j' + 1))
      exact congrArg some (by omega)

/-- With pairwise-distinct keys, `order.get(tcs[j].golden_key, 0) = j`. -/
theorem orderGet_key_of_nodup (tcs : List TestCase)
    (hnd : (tcs.map TestCase.golden_key).Nodup) (j : Fin tcs.length) :
    orderGet tcs (tcs.get j).golden_key = j.1 := by
  unfold orderGet
  rw [lastIndexOfKey_of_nodup tcs hnd j.1 j.2 0]
  simp

/-- C8 (corrected): when the *joined* `category/name` keys of the test cases
are pairwise distinct, the stable sort at the end of `run_all` restores
the original input order from any worker-completion order.  (Distinct
`(category, name)` pairs are not enough: keys are compared as joined
strings.) -/
theorem run_all_restores_input_order (tcs : List TestCase) (f : TestCase → RunResult)
    (hf : ∀ tc, (f tc).test_case = tc)
    (hnd : (tcs.map TestCase.golden_key).Nodup)
    (collected : List RunResult) (hperm : collected.Perm (tcs.map f)) :
    run_all_merge tcs collected = tcs.map f := by
  set key : RunResult → Nat := fun r => orderGet tcs r.test_case.golden_key with hkey
  haveI : IsTotal RunResult (runner_order tcs) := ⟨fun _ _ => Nat.le_total _ _⟩
  haveI : IsTrans RunResult (runner_order tcs) := ⟨fun _ _ _ hab hbc => Nat.le_trans hab hbc⟩
  have hpermOut : (run_all_merge tcs collected).Perm (tcs.map f) :=
    (List.perm_insertionSort (runner_order tcs) collected).trans hperm
  have hsortedOut : List.Sorted (runner_order tcs) (run_all_merge tcs collected) :=
    List.sorted_insertionSort (runner_order tcs) collected
  have hkeymap : ∀ j : Fin tcs.length, key (f (tcs.get j)) = j.1 := by
    intro j
    show orderGet tcs (f (tcs.get j)).test_case.golden_key = j.1
    rw [hf]
    exact orderGet_key_of_nodup tcs hnd j
  have hsortedTarget : List.Pairwise (fun a b => key a < key b) (tcs.map f) := by
    rw [List.pairwise_map, List.pairwise_iff_get]
    intro i j hij
    have hi := hkeymap i
    have hj := hkeymap j
    rw [hi, hj]
    exact hij
  have hkeysTarget : List.Pairwise (fun a b => key a ≠ key b) (tcs.map f) :=
    hsortedTarget.imp (fun h => Nat.ne_of_lt h)
  have hkeysOut : List.Pairwise (fun a b => key a ≠ key b) (run_all_merge tcs collected) :=
    (hpermOut.pairwise_iff (fun {_ _} h => Ne.symm h)).mpr hkeysTarget
  have hsortedOutStrict :
      List.Pairwise (fun a b => key a < key b) (run_all_merge tcs collected) :=
    List.Pairwise.imp₂ (fun _ _ hle hne => Nat.lt_of_le_of_ne hle hne) hsortedOut hkeysOut
  haveI : IsAntisymm RunResult (fun a b => key a < key b) :=
    ⟨fun _ _ h1 h2 => absurd h2 (Nat.lt_asymm h1)⟩
  exact List.eq_of_perm_of_sorted hpermOut hsortedOutStrict hsortedTarget

/-- C8 counterexample, first test case: category `"a"`, name `"b/c"`. -/
def tcO1 : TestCase := { name := "b/c", category := "a", args := [] }

/-- C8 counterexample, second test case: category `"a/b"`, name `"c"` — a
distinct `(category, name)` identity with the same joined key. -/
def tcO2 : TestCase := { name := "c", category := "a/b", args := [] }

/-- Run of `tcO1`. -/
def rO1 : RunResult := { test_case := tcO1, stdout := "one", stderr := "", exit_code := 0 }

/-- Run of `tcO2`. -/
def rO2 : RunResult := { test_case := tcO2, stdout := "two", stderr := "", exit_code := 0 }

/-- C8 counterexample: two test cases with pairwise-distinct
`(category, name)` identities whose joined keys collide (`"a/b/c"`); if
the workers complete in reversed order, the merge step of `run_all`
returns the reversed order, not the input order. -/
theorem run_all_order_cex :
    (tcO1.category, tcO1.name) ≠ (tcO2.category, tcO2.name) ∧
    [rO2, rO1].Perm [rO1, rO2] ∧
    run_all_merge [tcO1, tcO2] [rO2, rO1] = [rO2, rO1] ∧
    [rO2, rO1] ≠ [rO1, rO2] := by
  refine ⟨by decide, List.Perm.swap rO1 rO2 [], by decide, by decide⟩

/-- First test case for the C8 witness. -/
def tcP1 : TestCase := { name := "p1", category := "w", args := [] }

/-- Second test case for the C8 witness. -/
def tcP2 : TestCase := { name := "p2", category := "w", args := [] }

/-- The runner modelled as a pure function for the C8 witness. -/
def fP : TestCase → RunResult :=
  fun tc => { test_case := tc, stdout := "", stderr := "", exit_code := 0 }

/-- C8 witness: with distinct keys and reversed completion order, the merge
restores the input order. -/
theorem run_all_restores_input_order_witness :
    run_all_merge [tcP1, tcP2] [fP tcP2, fP tcP1] = [tcP1, tcP2].map fP :=
  run_all_restores_input_order [tcP1, tcP2] fP (fun _ => rfl) (by decide)
    [fP tcP2, fP tcP1] (List.Perm.swap (fP tcP1) (fP tcP2) [])

end Golden
